import Mathlib

/-!
Shallow embedding of the NOTAM-Pager service (szeremeta1/NOTAM-Pager).

Source files embedded:
* `src/stateManager.js` — `loadState`, `saveState`, `hasSeenNotam`,
  `markNotamAsSeen`, `getNewNotams`;
* `src/index.js` — the `pollNotams` cycle (re-entrancy guard, diff,
  startup probe, sequential delivery, end-of-cycle save);
* `src/messageClean.js` — `removeEmojis`, `cleanMessage`;
* the fetcher variants' `getNotamId` (FAA public-search variant and
  NMS variant).

Modelling conventions: JS strings are `String`, JS arrays are `List`,
absent/undefined fields are `Option`, JS truthiness of a string value
(`undefined`/`""` falsy) is `truthyS`, machine I/O (file read, JSON
parse, HTTP transport, wall clock, `Math.random`) enters as explicit
function-typed or value parameters, and a thrown-and-caught JS
exception is an `Except.error` value.
-/

/-- The persisted state shape `{ seenNotams: [...] }` used by
`stateManager.js` (well-formed case). -/
structure NotamState where
  seenNotams : List String
deriving Repr, DecidableEq

/-- `hasSeenNotam(notamId, state)` from `stateManager.js`:
`state.seenNotams.includes(notamId)`. -/
def hasSeenNotam (notamId : String) (state : NotamState) : Bool :=
  state.seenNotams.contains notamId

/-- `markNotamAsSeen(notamId, state)` from `stateManager.js`: push the id
if absent; if the list then exceeds 1000 entries keep only the last 1000
(`slice(-1000)` = `drop (length - 1000)`). -/
def markNotamAsSeen (notamId : String) (state : NotamState) : NotamState :=
  if state.seenNotams.contains notamId then state
  else
    let seen := state.seenNotams ++ [notamId]
    if seen.length > 1000 then ⟨seen.drop (seen.length - 1000)⟩ else ⟨seen⟩

/-- A normalized notice as produced by the fetchers' `formatNotam`
(`{id, text, number, raw}`; `raw` is diagnostic-only and omitted). -/
structure Notam where
  id : String
  text : String
  number : Option String := none
deriving Repr, DecidableEq

/-- `getNewNotams(notams, state)` from `stateManager.js`:
`notams.filter(n => !hasSeenNotam(n.id, state))`. -/
def getNewNotams (notams : List Notam) (state : NotamState) : List Notam :=
  notams.filter (fun n => !hasSeenNotam n.id state)

/-- JSON values, for the untyped result of `JSON.parse` in `loadState`. -/
inductive Json where
  | null
  | bool (b : Bool)
  | num (n : Int)
  | str (s : String)
  | arr (items : List Json)
  | obj (fields : List (String × Json))

/-- The `{ seenNotams: [] }` value `loadState` falls back to. -/
def emptyStateJson : Json := Json.obj [("seenNotams", Json.arr [])]

/-- `loadState()` from `stateManager.js`. The file read is modelled as
`readResult` (`none` = missing file or I/O error) and `JSON.parse` as the
`parse` parameter (`none` = parse exception). Both failure modes land in
the `catch` branch, which returns `{ seenNotams: [] }`; a successful
parse is returned unchanged. -/
def loadState (readResult : Option String) (parse : String → Option Json) : Json :=
  match readResult with
  | none => emptyStateJson
  | some data =>
    match parse data with
    | some value => value
    | none => emptyStateJson

/-- `hasSeenNotam` applied to an arbitrary (untyped) loaded JS value:
`state.seenNotams.includes(notamId)`. `some b` is a normal return;
`none` models the thrown `TypeError` when `state` is not an object with
a `seenNotams` array (property access on a non-object / `.includes` on
`undefined` or a non-array). `includes` uses strict equality, so only
string elements can match a string id. -/
def hasSeenNotamJson (notamId : String) (state : Json) : Option Bool :=
  match state with
  | .obj fields =>
    match List.lookup "seenNotams" fields with
    | some (.arr items) =>
      some (items.any (fun j => match j with | .str s => s = notamId | _ => false))
    | some _ => none
    | none => none
  | _ => none

/-- An upstream raw NOTAM record: every field the `getNotamId` variants
inspect, each possibly absent. -/
structure RawNotam where
  transactionId : Option String := none
  notamId : Option String := none
  id : Option String := none
  notamNumber : Option String := none
  number : Option String := none
  notamID : Option String := none
  icaoId : Option String := none
  icao : Option String := none
  raw_text : Option String := none
  message : Option String := none
  text : Option String := none
  issueDateTime : Option String := none
  issueDate : Option String := none
  stationId : Option String := none
  location : Option String := none
  startTime : Option String := none
  key : Option String := none
deriving Repr, DecidableEq

/-- JS truthiness of a possibly-absent string (`undefined` and `""` are
falsy). -/
def truthyS (o : Option String) : Bool :=
  match o with
  | some s => !(s = "")
  | none => false

/-- A JS `a || b || ...` chain over string-valued fields: the first
truthy operand, or `none` when all are falsy. -/
def firstTruthy : List (Option String) → Option String
  | [] => none
  | o :: rest => if truthyS o then o else firstTruthy rest

/-- Value of a field chain ending in `|| ''` inside a template literal. -/
def jsVal (o : Option String) : String := o.getD ""

/-- `getNotamId(notam)` from the FAA public-search fetcher variant:
try the id fields; else build
```${raw_text||message||text||''}_${issueDateTime||issueDate||''}_${stationId||''}` ``
and `return fallbackId || `notam_${Date.now()}_${random}``. The wall
clock and random suffix are the `now`/`rand` parameters. -/
def getNotamIdFaa (notam : RawNotam) (now : Nat) (rand : String) : String :=
  match firstTruthy [notam.transactionId, notam.notamId, notam.id, notam.notamNumber,
                     notam.number, notam.notamID, notam.icaoId, notam.icao] with
  | some s => s
  | none =>
    let fallbackId :=
      jsVal (firstTruthy [notam.raw_text, notam.message, notam.text]) ++ "_" ++
      jsVal (firstTruthy [notam.issueDateTime, notam.issueDate]) ++ "_" ++
      jsVal (firstTruthy [notam.stationId])
    if fallbackId ≠ "" then fallbackId
    else "notam_" ++ toString now ++ "_" ++ rand

/-- JS `String.prototype.trim` whitespace test (common subset:
space, tab, LF, VT, FF, CR). -/
def isJsSpace (c : Char) : Bool :=
  c.toNat = 32 || c.toNat = 9 || c.toNat = 10 || c.toNat = 11 || c.toNat = 12 || c.toNat = 13

/-- `trim()` on a character list: drop whitespace from both ends. -/
def trimList (l : List Char) : List Char :=
  ((l.dropWhile isJsSpace).reverse.dropWhile isJsSpace).reverse

/-- `getNotamId(notam)` from the NMS fetcher variant: try the id fields;
else build ```${location||icao||icaoId||''}_${startTime||''}` ``; if its
`trim()` is truthy return its first 80 chars (`slice(0, 80)`), else the
time+random token. -/
def getNotamIdNms (notam : RawNotam) (now : Nat) (rand : String) : String :=
  match firstTruthy [notam.id, notam.notamId, notam.notamNumber, notam.key,
                     notam.transactionId] with
  | some s => s
  | none =>
    let fallback :=
      jsVal (firstTruthy [notam.location, notam.icao, notam.icaoId]) ++ "_" ++
      jsVal (firstTruthy [notam.startTime])
    if trimList fallback.data ≠ [] then ⟨fallback.data.take 80⟩
    else "notam_" ++ toString now ++ "_" ++ rand

/-- A raw record with every field absent. -/
def emptyRawNotam : RawNotam := {}

/-! ## `messageClean.js` -/

/-- A closed-interval code-point test, for one emoji `replace` range. -/
def inCharRange (lo hi : Nat) (c : Char) : Bool :=
  lo ≤ c.toNat && c.toNat ≤ hi

/-- The eleven code-point ranges removed by `removeEmojis`, in the order
of the chained `.replace(..., '')` calls (the last is the zero-width
joiner singleton). -/
def emojiRanges : List (Nat × Nat) :=
  [(0x1F600, 0x1F64F), (0x1F300, 0x1F5FF), (0x1F680, 0x1F6FF), (0x1F1E0, 0x1F1FF),
   (0x2600, 0x26FF), (0x2700, 0x27BF), (0x1F900, 0x1F9FF), (0x1FA00, 0x1FA6F),
   (0x1FA70, 0x1FAFF), (0xFE00, 0xFE0F), (0x200D, 0x200D)]

/-- Membership in any of the removed ranges. -/
def isEmojiChar (c : Char) : Bool :=
  emojiRanges.any (fun r => inCharRange r.1 r.2 c)

/-- `removeEmojis(text)` from `messageClean.js`: the chained
range-deleting `replace` calls (each one a filter dropping that range),
then `.trim()`. The `if (!text) return ''` guard is subsumed: on `""`
the result is `""`. -/
def removeEmojis (s : String) : String :=
  ⟨trimList (emojiRanges.foldl
      (fun l r => l.filter (fun c => !inCharRange r.1 r.2 c)) s.data)⟩

/-- The NOTAM object as `cleanMessage` inspects it (fields may be
absent). -/
structure JsNotam where
  id : Option String := none
  number : Option String := none
  notamNumber : Option String := none
  text : Option String := none
  message : Option String := none
  traditionalMessage : Option String := none
deriving Repr, DecidableEq

/-- `cleanMessage`'s argument: either a NOTAM object or (per the
`typeof notam === 'string'` branch) a bare string. -/
inductive CleanInput where
  | obj (n : JsNotam)
  | str (s : String)
deriving Repr, DecidableEq

/-- Number of `'\n'` to emit for a maximal newline run of length `k`
under `replace(/\n{3,}/g, '\n\n')`. -/
def emitNL (k : Nat) : List Char :=
  List.replicate (if 3 ≤ k then 2 else k) '\n'

/-- Scanner for `replace(/\n{3,}/g, '\n\n')`: `k` is the length of the
newline run read so far. -/
def collapseGo : Nat → List Char → List Char
  | k, [] => emitNL k
  | k, c :: rest =>
    if c = '\n' then collapseGo (k + 1) rest
    else emitNL k ++ c :: collapseGo 0 rest

/-- `message.replace(/\n{3,}/g, '\n\n')`: every maximal run of three or
more newlines becomes exactly two; shorter runs are unchanged. -/
def collapseNL (l : List Char) : List Char := collapseGo 0 l

/-- The `try` body of `cleanMessage(notam, airportCode)`: header line,
optional `#`-number line, body text, `Received:` timestamp line, then
newline collapsing and `trim()`. The wall-clock
`new Date().toLocaleString()` is the `timestamp` parameter. -/
def cleanMessageBody (input : CleanInput) (airportCode : String) (timestamp : String) :
    List Char :=
  let header := airportCode.data ++ (" NOTAM\n" : String).data
  let numPart : List Char :=
    match input with
    | .obj n =>
      match firstTruthy [n.number, n.notamNumber, n.id] with
      | some num => '#' :: (removeEmojis num).data ++ ['\n']
      | none => []
    | .str _ => []
  let textPart : List Char :=
    match input with
    | .obj n =>
      match firstTruthy [n.text, n.message, n.traditionalMessage] with
      | some t => (removeEmojis t).data
      | none => []
    | .str s => (removeEmojis s).data
  let received := '\n' :: ("Received: " : String).data ++ timestamp.data
  trimList (collapseNL (header ++ numPart ++ textPart ++ received))

/-- The `try`/`catch` of `cleanMessage`: a thrown body is an
`Except.error` and yields the fixed fallback string. -/
def cleanMessageRun (body : Except String (List Char)) : String :=
  match body with
  | .ok m => ⟨m⟩
  | .error _ => "Error processing NOTAM message"

/-- `cleanMessage(notam, airportCode)` from `messageClean.js` (in the
shallow embedding the body is total, so the `catch` branch of
`cleanMessageRun` is only reachable on an injected error). -/
def cleanMessage (input : CleanInput) (airportCode : String) (timestamp : String) :
    String :=
  cleanMessageRun (Except.ok (cleanMessageBody input airportCode timestamp))

/-! ## `index.js` — the poll cycle -/

/-- View of a formatted `Notam` as the object `cleanMessage` receives
(`formatNotam` output: `id`, `text`, `number`; no `notamNumber`,
`message` or `traditionalMessage` fields). -/
def toJsNotam (n : Notam) : JsNotam :=
  { id := some n.id, text := some n.text, number := n.number }

/-- Process-wide configuration read by `pollNotams`. -/
structure PollEnv where
  airportCode : String
  startupSendLatest : Bool
deriving Repr, DecidableEq

/-- The mutable module-level variables of `index.js` that `pollNotams`
reads and writes. -/
structure AppState where
  state : NotamState
  isPolling : Bool
  startupProbePending : Bool
deriving Repr, DecidableEq

/-- One delivery attempt: the notice, the sanitized message handed to
`sendToPagerApi`, and the transport's `result.success`. -/
structure SendRecord where
  notam : Notam
  cleanedMessage : String
  success : Bool
deriving Repr, DecidableEq

/-- The `for (const notam of queue)` loop of `pollNotams`: sanitize,
send, and on `result.success` mark seen immediately; on failure leave
the state untouched and continue. `send i` is the transport outcome of
the `i`-th send of this cycle (errors are result values, never thrown).
The fixed 2-second inter-message delay has no state effect and is
omitted. -/
def processQueue (send : Nat → Bool) (airport ts : String) :
    List Notam → Nat → NotamState → NotamState × List SendRecord
  | [], _, st => (st, [])
  | n :: rest, i, st =>
    let cleaned := cleanMessage (.obj (toJsNotam n)) airport ts
    let ok := send i
    let st' := if ok then markNotamAsSeen n.id st else st
    let tail := processQueue send airport ts rest (i + 1) st'
    (tail.1, ⟨n, cleaned, ok⟩ :: tail.2)

/-- Result of one `pollNotams()` invocation: the module variables after
the call, the delivery attempts made, and the state passed to
`saveState` (`none` when the call was guarded out and never saved). -/
structure PollResult where
  app : AppState
  records : List SendRecord
  saved : Option NotamState
deriving Repr, DecidableEq

/-- `pollNotams()` from `index.js`. `notams` is the (already
`formatNotam`-normalized) fetch result — a failed fetch is the empty
list, as `fetchNotams` catches its own errors. In order:
`forceSendLatest` is captured, the re-entrancy guard may return early,
the new-set is computed once against the current state, the startup
probe may append `notams[0]` to an otherwise-empty queue, the queue is
delivered sequentially, the state is saved once, and the one-shot probe
flag is cleared; `finally` resets `isPolling`. -/
def pollNotams (env : PollEnv) (send : Nat → Bool) (notams : List Notam)
    (ts : String) (app : AppState) : PollResult :=
  let forceSendLatest := app.startupProbePending && env.startupSendLatest
  if app.isPolling then
    { app := app, records := [], saved := none }
  else
    let newNotams := getNewNotams notams app.state
    let queue :=
      if forceSendLatest && newNotams.isEmpty && !notams.isEmpty then
        newNotams ++ notams.take 1
      else newNotams
    let res := processQueue send env.airportCode ts queue 0 app.state
    let probePending' := if forceSendLatest then false else app.startupProbePending
    { app := { state := res.1, isPolling := false, startupProbePending := probePending' },
      records := res.2,
      saved := some res.1 }

/-! ## Helper lemmas on the seen-set -/

theorem markNotamAsSeen_of_mem {x : String} {s : NotamState} (h : x ∈ s.seenNotams) :
    markNotamAsSeen x s = s := by
  have hc : s.seenNotams.contains x = true := by simpa using h
  simp only [markNotamAsSeen, hc, if_true]

theorem markNotamAsSeen_of_not_mem {x : String} {s : NotamState} (h : ¬ x ∈ s.seenNotams) :
    markNotamAsSeen x s =
      ⟨(s.seenNotams ++ [x]).drop (s.seenNotams.length - 999)⟩ := by
  have hc : s.seenNotams.contains x = false := by simpa using h
  simp only [markNotamAsSeen, hc, Bool.false_eq_true, if_false]
  by_cases h2 : (s.seenNotams ++ [x]).length > 1000
  · rw [if_pos h2]
    have harith : (s.seenNotams ++ [x]).length - 1000 = s.seenNotams.length - 999 := by
      simp
    rw [harith]
  · rw [if_neg h2]
    have h0 : s.seenNotams.length - 999 = 0 := by
      simp only [List.length_append, List.length_cons, List.length_nil] at h2
      omega
    rw [h0, List.drop_zero]

theorem mem_markNotamAsSeen_self (x : String) (s : NotamState) :
    x ∈ (markNotamAsSeen x s).seenNotams := by
  by_cases h : x ∈ s.seenNotams
  · rw [markNotamAsSeen_of_mem h]; exact h
  · rw [markNotamAsSeen_of_not_mem h]
    have step : (s.seenNotams ++ [x]).drop (s.seenNotams.length - 999) =
        s.seenNotams.drop (s.seenNotams.length - 999) ++ [x] :=
      List.drop_append_of_le_length (Nat.sub_le _ _)
    rw [step]
    simp

theorem mem_of_mem_markNotamAsSeen {x y : String} {s : NotamState}
    (h : y ∈ (markNotamAsSeen x s).seenNotams) : y ∈ s.seenNotams ∨ y = x := by
  by_cases hm : x ∈ s.seenNotams
  · rw [markNotamAsSeen_of_mem hm] at h
    exact Or.inl h
  · rw [markNotamAsSeen_of_not_mem hm] at h
    have step : (s.seenNotams ++ [x]).drop (s.seenNotams.length - 999) =
        s.seenNotams.drop (s.seenNotams.length - 999) ++ [x] :=
      List.drop_append_of_le_length (Nat.sub_le _ _)
    rw [step] at h
    rcases List.mem_append.mp h with h1 | h1
    · exact Or.inl (List.mem_of_mem_drop h1)
    · simp only [List.mem_singleton] at h1
      exact Or.inr h1

theorem markNotamAsSeen_eq_append {x : String} {s : NotamState}
    (h : ¬ x ∈ s.seenNotams) :
    ∃ u, (markNotamAsSeen x s).seenNotams = u ++ [x] := by
  rw [markNotamAsSeen_of_not_mem h]
  have step : (s.seenNotams ++ [x]).drop (s.seenNotams.length - 999) =
      s.seenNotams.drop (s.seenNotams.length - 999) ++ [x] :=
    List.drop_append_of_le_length (Nat.sub_le _ _)
  rw [step]
  exact ⟨_, rfl⟩

theorem mem_markNotamAsSeen_of_last {x y : String} {s : NotamState} {u : List String}
    (h : s.seenNotams = u ++ [x]) : x ∈ (markNotamAsSeen y s).seenNotams := by
  by_cases hm : y ∈ s.seenNotams
  · rw [markNotamAsSeen_of_mem hm, h]
    simp
  · rw [markNotamAsSeen_of_not_mem hm]
    have step : (s.seenNotams ++ [y]).drop (s.seenNotams.length - 999) =
        s.seenNotams.drop (s.seenNotams.length - 999) ++ [y] :=
      List.drop_append_of_le_length (Nat.sub_le _ _)
    rw [step, h]
    have hle : (u ++ [x]).length - 999 ≤ u.length := by
      simp only [List.length_append, List.length_cons, List.length_nil]
      omega
    rw [List.drop_append_of_le_length hle]
    simp

theorem hasSeenNotam_iff (x : String) (s : NotamState) :
    hasSeenNotam x s = true ↔ x ∈ s.seenNotams := by
  simp [hasSeenNotam]

theorem hasSeenNotam_markNotamAsSeen_self (x : String) (s : NotamState) :
    hasSeenNotam x (markNotamAsSeen x s) = true :=
  (hasSeenNotam_iff _ _).mpr (mem_markNotamAsSeen_self x s)

theorem hasSeenNotam_markNotamAsSeen_of_ne {x y : String} {s : NotamState}
    (hne : y ≠ x) (hns : hasSeenNotam y s = false) :
    hasSeenNotam y (markNotamAsSeen x s) = false := by
  rw [Bool.eq_false_iff]
  intro hmem
  rcases mem_of_mem_markNotamAsSeen ((hasSeenNotam_iff _ _).mp hmem) with hin | hx
  · rw [← hasSeenNotam_iff] at hin
    simp [hns] at hin
  · exact hne hx

/-! ## C5 — re-entrancy guard -/

/-- C5: if `pollNotams` is invoked while a cycle is already in progress
(`isPolling = true`), the invocation performs no delivery and no SeenSet
mutation and never reaches `saveState`: for every fetch result and every
transport behaviour, it returns with the module state unchanged, an
empty list of delivery attempts, and no save. -/
theorem pollNotams_reentrancy_noop (env : PollEnv) (send : Nat → Bool)
    (notams : List Notam) (ts : String) (app : AppState)
    (h : app.isPolling = true) :
    pollNotams env send notams ts app = ⟨app, [], none⟩ := by
  simp [pollNotams, h]

/-- Witness for C5 at a concrete busy state. -/
theorem pollNotams_reentrancy_noop_witness :
    (AppState.mk ⟨["X1"]⟩ true true).isPolling = true ∧
    pollNotams ⟨"KBLM", true⟩ (fun _ => true) [⟨"A", "txt", none⟩] "10:30"
        (AppState.mk ⟨["X1"]⟩ true true) =
      ⟨AppState.mk ⟨["X1"]⟩ true true, [], none⟩ :=
  ⟨rfl, pollNotams_reentrancy_noop ⟨"KBLM", true⟩ (fun _ => true)
    [⟨"A", "txt", none⟩] "10:30" (AppState.mk ⟨["X1"]⟩ true true) rfl⟩

/-! ## C8 — cold start of `loadState` -/

/-- C8: `loadState` never fails: on a missing state file or I/O error
(`readResult = none`) or on a JSON parse failure, it returns the empty
SeenSet `{seenNotams: []}` (in the embedding, all failure modes yield a
normal value, never an exception). -/
theorem loadState_cold_start (readResult : Option String)
    (parse : String → Option Json)
    (h : readResult = none ∨ ∃ d, readResult = some d ∧ parse d = none) :
    loadState readResult parse = emptyStateJson := by
  rcases h with h | ⟨d, hd, hp⟩
  · rw [h]
    rfl
  · rw [hd]
    simp [loadState, hp]

/-- Witness for C8: a state file holding unparsable content. -/
theorem loadState_cold_start_witness :
    ((some "not json" : Option String) = none ∨
      ∃ d, (some "not json" : Option String) = some d
        ∧ (fun _ => (none : Option Json)) d = none) ∧
    loadState (some "not json") (fun _ => (none : Option Json)) = emptyStateJson :=
  ⟨Or.inr ⟨"not json", rfl, rfl⟩,
    loadState_cold_start (some "not json") (fun _ => none) (Or.inr ⟨"not json", rfl, rfl⟩)⟩

/-! ## C10 — `loadState` performs no shape validation -/

/-- A `JSON.parse` behaviour whose result on the file content `"123"` is
the JSON number `123` (what the real parser returns there). -/
def parseNum123 : String → Option Json :=
  fun s => if s = "123" then some (Json.num 123) else none

/-- C10: for the existing state-file content `123` (valid JSON, not an
object with a `seenNotams` string array), `loadState` returns the parsed
value unchanged — not the empty SeenSet — and `hasSeenNotam` applied to
that result throws (models as `none`): the SeenSet shape is not
re-established on load. -/
theorem loadState_no_shape_validation :
    loadState (some "123") parseNum123 = Json.num 123 ∧
    loadState (some "123") parseNum123 ≠ emptyStateJson ∧
    hasSeenNotamJson "x" (loadState (some "123") parseNum123) = none := by
  refine ⟨rfl, ?_, rfl⟩
  intro h
  rw [show loadState (some "123") parseNum123 = Json.num 123 from rfl] at h
  simp only [emptyStateJson] at h
  exact Json.noConfusion h

/-! ## C7 — degenerate fallback identifiers -/

/-- C7 counterexample: for a record with every identifier and content
field absent, both `getNotamId` variants return a constant underscore
string — the same value on polls at different times with different
randomness — not a process-time+random token, so such a notice does not
get a fresh id on each poll. -/
theorem getNotamId_fallback_counterexample :
    getNotamIdFaa emptyRawNotam 0 "a" = "__" ∧
    getNotamIdFaa emptyRawNotam 999999 "zz" = "__" ∧
    getNotamIdNms emptyRawNotam 0 "a" = "_" ∧
    getNotamIdNms emptyRawNotam 999999 "zz" = "_" := by
  refine ⟨?_, ?_, ?_, ?_⟩ <;> rfl

/-- All fields a `getNotamId` variant can consult are JS-falsy
(absent or the empty string). -/
def allFieldsFalsy (n : RawNotam) : Prop :=
  truthyS n.transactionId = false ∧ truthyS n.notamId = false ∧
  truthyS n.id = false ∧ truthyS n.notamNumber = false ∧
  truthyS n.number = false ∧ truthyS n.notamID = false ∧
  truthyS n.icaoId = false ∧ truthyS n.icao = false ∧
  truthyS n.raw_text = false ∧ truthyS n.message = false ∧
  truthyS n.text = false ∧ truthyS n.issueDateTime = false ∧
  truthyS n.issueDate = false ∧ truthyS n.stationId = false ∧
  truthyS n.location = false ∧ truthyS n.startTime = false ∧
  truthyS n.key = false

/-- C7 (amended): for every record whose identifier fields are all
absent and whose content-fallback fields are all empty, the
underscore-joined fallback template is nonetheless a non-empty (truthy)
string, so `getNotamId` returns it — the constant `"__"` (FAA variant)
resp. `"_"` (NMS variant) — and the time+random branch is unreachable:
the notice receives the *same* id on every poll, independent of process
time and randomness. -/
theorem getNotamId_degenerate_fallback (n : RawNotam) (t1 t2 : Nat) (r1 r2 : String)
    (h : allFieldsFalsy n) :
    getNotamIdFaa n t1 r1 = "__" ∧ getNotamIdNms n t1 r1 = "_" ∧
    getNotamIdFaa n t1 r1 = getNotamIdFaa n t2 r2 ∧
    getNotamIdNms n t1 r1 = getNotamIdNms n t2 r2 := by
  obtain ⟨h1, h2, h3, h4, h5, h6, h7, h8, h9, h10, h11, h12, h13, h14, h15, h16, h17⟩ := h
  have e1 : firstTruthy [n.transactionId, n.notamId, n.id, n.notamNumber,
      n.number, n.notamID, n.icaoId, n.icao] = none := by
    simp [firstTruthy, h1, h2, h3, h4, h5, h6, h7, h8]
  have e2 : firstTruthy [n.raw_text, n.message, n.text] = none := by
    simp [firstTruthy, h9, h10, h11]
  have e3 : firstTruthy [n.issueDateTime, n.issueDate] = none := by
    simp [firstTruthy, h12, h13]
  have e4 : firstTruthy [n.stationId] = none := by
    simp [firstTruthy, h14]
  have e5 : firstTruthy [n.id, n.notamId, n.notamNumber, n.key, n.transactionId] = none := by
    simp [firstTruthy, h3, h2, h4, h17, h1]
  have e6 : firstTruthy [n.location, n.icao, n.icaoId] = none := by
    simp [firstTruthy, h15, h8, h7]
  have e7 : firstTruthy [n.startTime] = none := by
    simp [firstTruthy, h16]
  have hFaa : ∀ t r, getNotamIdFaa n t r = "__" := by
    intro t r
    simp only [getNotamIdFaa, e1, e2, e3, e4]
    have hcond : jsVal (none : Option String) ++ "_" ++ jsVal none ++ "_" ++ jsVal none ≠ "" := by
      decide
    rw [if_pos hcond]
    decide
  have hNms : ∀ t r, getNotamIdNms n t r = "_" := by
    intro t r
    simp only [getNotamIdNms, e5, e6, e7]
    have hcond : trimList (jsVal (none : Option String) ++ "_" ++ jsVal none).data ≠ [] := by
      decide
    rw [if_pos hcond]
    decide
  exact ⟨hFaa t1 r1, hNms t1 r1, (hFaa t1 r1).trans (hFaa t2 r2).symm,
    (hNms t1 r1).trans (hNms t2 r2).symm⟩

/-- Witness for the amended C7 at the all-absent record, at two
distinct poll times. -/
theorem getNotamId_degenerate_fallback_witness :
    allFieldsFalsy emptyRawNotam ∧
    (getNotamIdFaa emptyRawNotam 5 "q" = "__" ∧ getNotamIdNms emptyRawNotam 5 "q" = "_" ∧
     getNotamIdFaa emptyRawNotam 5 "q" = getNotamIdFaa emptyRawNotam 77 "zz" ∧
     getNotamIdNms emptyRawNotam 5 "q" = getNotamIdNms emptyRawNotam 77 "zz") :=
  ⟨⟨rfl, rfl, rfl, rfl, rfl, rfl, rfl, rfl, rfl, rfl, rfl, rfl, rfl, rfl, rfl, rfl, rfl⟩,
    getNotamId_degenerate_fallback emptyRawNotam 5 77 "q" "zz"
      ⟨rfl, rfl, rfl, rfl, rfl, rfl, rfl, rfl, rfl, rfl, rfl, rfl, rfl, rfl, rfl, rfl, rfl⟩⟩

/-! ## Helper lemmas on the poll cycle -/

theorem processQueue_map_notam (send : Nat → Bool) (airport ts : String) :
    ∀ (q : List Notam) (i : Nat) (st : NotamState),
      ((processQueue send airport ts q i st).2).map SendRecord.notam = q := by
  intro q
  induction q with
  | nil => intro i st; rfl
  | cons n rest ih =>
    intro i st
    simp only [processQueue, List.map_cons]
    rw [ih]

theorem pollNotams_eq_no_probe (env : PollEnv) (send : Nat → Bool)
    (notams : List Notam) (ts : String) (app : AppState)
    (hp : app.isPolling = false)
    (hq : (app.startupProbePending && env.startupSendLatest) = false
          ∨ getNewNotams notams app.state ≠ []) :
    pollNotams env send notams ts app =
      { app := ⟨(processQueue send env.airportCode ts (getNewNotams notams app.state)
                  0 app.state).1,
                false,
                if app.startupProbePending && env.startupSendLatest then false
                else app.startupProbePending⟩,
        records := (processQueue send env.airportCode ts (getNewNotams notams app.state)
                  0 app.state).2,
        saved := some (processQueue send env.airportCode ts (getNewNotams notams app.state)
                  0 app.state).1 } := by
  rcases hq with h | h
  · simp [pollNotams, hp, h]
  · have hie : (getNewNotams notams app.state).isEmpty = false := by
      simpa [List.isEmpty_iff] using h
    simp [pollNotams, hp, hie]

theorem pollNotams_probe_cleared (env : PollEnv) (send : Nat → Bool)
    (notams : List Notam) (ts : String) (app : AppState)
    (hp : app.isPolling = false) :
    ((pollNotams env send notams ts app).app.startupProbePending
      && env.startupSendLatest) = false := by
  cases hpp : app.startupProbePending <;> cases hsl : env.startupSendLatest <;>
    simp [pollNotams, hp, hpp, hsl]

theorem pollNotams_isPolling_false (env : PollEnv) (send : Nat → Bool)
    (notams : List Notam) (ts : String) (app : AppState)
    (hp : app.isPolling = false) :
    (pollNotams env send notams ts app).app.isPolling = false := by
  simp [pollNotams, hp]

/-! ## C4 — partial-failure isolation -/

/-- C4: for a batch of three new notices where the transport returns
failure (as a result value) for the 2nd and success for the 1st and 3rd,
all three are attempted (sanitized and sent, in fetch order), the 1st
and 3rd ids end up marked seen, and the 2nd id is not marked seen. -/
theorem partial_failure_isolation (env : PollEnv) (send : Nat → Bool)
    (n1 n2 n3 : Notam) (ts : String) (app : AppState)
    (hp : app.isPolling = false)
    (h1 : hasSeenNotam n1.id app.state = false)
    (h2 : hasSeenNotam n2.id app.state = false)
    (h3 : hasSeenNotam n3.id app.state = false)
    (h12 : n1.id ≠ n2.id) (h13 : n1.id ≠ n3.id) (h23 : n2.id ≠ n3.id)
    (hs0 : send 0 = true) (hs1 : send 1 = false) (hs2 : send 2 = true) :
    ((pollNotams env send [n1, n2, n3] ts app).records).map SendRecord.notam
        = [n1, n2, n3] ∧
    ((pollNotams env send [n1, n2, n3] ts app).records).map SendRecord.success
        = [true, false, true] ∧
    hasSeenNotam n1.id (pollNotams env send [n1, n2, n3] ts app).app.state = true ∧
    hasSeenNotam n2.id (pollNotams env send [n1, n2, n3] ts app).app.state = false ∧
    hasSeenNotam n3.id (pollNotams env send [n1, n2, n3] ts app).app.state = true := by
  have hnew : getNewNotams [n1, n2, n3] app.state = [n1, n2, n3] := by
    simp [getNewNotams, List.filter, h1, h2, h3]
  have hrun := pollNotams_eq_no_probe env send [n1, n2, n3] ts app hp
    (Or.inr (by rw [hnew]; exact List.cons_ne_nil _ _))
  rw [hrun, hnew]
  have hproc : processQueue send env.airportCode ts [n1, n2, n3] 0 app.state =
      (markNotamAsSeen n3.id (markNotamAsSeen n1.id app.state),
       [⟨n1, cleanMessage (.obj (toJsNotam n1)) env.airportCode ts, true⟩,
        ⟨n2, cleanMessage (.obj (toJsNotam n2)) env.airportCode ts, false⟩,
        ⟨n3, cleanMessage (.obj (toJsNotam n3)) env.airportCode ts, true⟩]) := by
    simp [processQueue, hs0, hs1, hs2]
  rw [hproc]
  refine ⟨rfl, rfl, ?_, ?_, ?_⟩
  · have hm1 : ¬ n1.id ∈ app.state.seenNotams := by
      intro hmem
      rw [← hasSeenNotam_iff] at hmem
      simp [h1] at hmem
    obtain ⟨u, hu⟩ := markNotamAsSeen_eq_append hm1
    exact (hasSeenNotam_iff _ _).mpr (mem_markNotamAsSeen_of_last hu)
  · exact hasSeenNotam_markNotamAsSeen_of_ne h23
      (hasSeenNotam_markNotamAsSeen_of_ne (Ne.symm h12) h2)
  · exact hasSeenNotam_markNotamAsSeen_self _ _

/-- Witness for C4 at a concrete three-notice batch with the 2nd send
failing. -/
theorem partial_failure_isolation_witness :
    ((pollNotams ⟨"KBLM", false⟩ (fun i => !(i == 1))
        [⟨"A", "ta", none⟩, ⟨"B", "tb", none⟩, ⟨"C", "tc", none⟩] "10:30"
        ⟨⟨[]⟩, false, false⟩).records).map SendRecord.notam
      = [⟨"A", "ta", none⟩, ⟨"B", "tb", none⟩, ⟨"C", "tc", none⟩] ∧
    ((pollNotams ⟨"KBLM", false⟩ (fun i => !(i == 1))
        [⟨"A", "ta", none⟩, ⟨"B", "tb", none⟩, ⟨"C", "tc", none⟩] "10:30"
        ⟨⟨[]⟩, false, false⟩).records).map SendRecord.success
      = [true, false, true] ∧
    hasSeenNotam "A" (pollNotams ⟨"KBLM", false⟩ (fun i => !(i == 1))
        [⟨"A", "ta", none⟩, ⟨"B", "tb", none⟩, ⟨"C", "tc", none⟩] "10:30"
        ⟨⟨[]⟩, false, false⟩).app.state = true ∧
    hasSeenNotam "B" (pollNotams ⟨"KBLM", false⟩ (fun i => !(i == 1))
        [⟨"A", "ta", none⟩, ⟨"B", "tb", none⟩, ⟨"C", "tc", none⟩] "10:30"
        ⟨⟨[]⟩, false, false⟩).app.state = false ∧
    hasSeenNotam "C" (pollNotams ⟨"KBLM", false⟩ (fun i => !(i == 1))
        [⟨"A", "ta", none⟩, ⟨"B", "tb", none⟩, ⟨"C", "tc", none⟩] "10:30"
        ⟨⟨[]⟩, false, false⟩).app.state = true :=
  partial_failure_isolation ⟨"KBLM", false⟩ (fun i => !(i == 1))
    ⟨"A", "ta", none⟩ ⟨"B", "tb", none⟩ ⟨"C", "tc", none⟩ "10:30"
    ⟨⟨[]⟩, false, false⟩ rfl rfl rfl rfl
    (by decide) (by decide) (by decide) rfl rfl rfl

/-! ## C6 — FIFO cap eviction -/

theorem foldl_markNotamAsSeen_nodup (l : List String) (hnd : l.Nodup) :
    (l.foldl (fun s i => markNotamAsSeen i s) ⟨[]⟩).seenNotams
      = l.drop (l.length - 1000) := by
  induction l using List.reverseRecOn with
  | nil => rfl
  | append_singleton l' a ih =>
    have hnd' : l'.Nodup := hnd.of_append_left
    have hna : ¬ a ∈ l' := by
      intro hmem
      have := List.disjoint_of_nodup_append hnd hmem
      simp at this
    rw [List.foldl_append]
    have hstate : (l'.foldl (fun s i => markNotamAsSeen i s) ⟨[]⟩).seenNotams
        = l'.drop (l'.length - 1000) := ih hnd'
    set S := l'.foldl (fun s i => markNotamAsSeen i s) ⟨[]⟩ with hS
    have hnaS : ¬ a ∈ S.seenNotams := by
      rw [hstate]
      intro hmem
      exact hna (List.mem_of_mem_drop hmem)
    simp only [List.foldl_cons, List.foldl_nil]
    rw [markNotamAsSeen_of_not_mem hnaS]
    have hlen' : S.seenNotams.length = l'.length - (l'.length - 1000) := by
      rw [hstate, List.length_drop]
    by_cases hc : l'.length ≤ 999
    · have hd0 : l'.length - 1000 = 0 := by omega
      have hd0' : S.seenNotams.length - 999 = 0 := by omega
      have hd0'' : (l' ++ [a]).length - 1000 = 0 := by
        simp only [List.length_append, List.length_cons, List.length_nil]
        omega
      rw [hd0', List.drop_zero, hd0'', List.drop_zero, hstate, hd0, List.drop_zero]
    · have hlenS : S.seenNotams.length = 1000 := by omega
      have h999 : S.seenNotams.length - 999 = 1 := by omega
      rw [h999]
      have hstep : (S.seenNotams ++ [a]).drop 1 = S.seenNotams.drop 1 ++ [a] :=
        List.drop_append_of_le_length (by omega)
      rw [hstep, hstate, List.drop_drop]
      have harith : l'.length - 1000 + 1 = (l' ++ [a]).length - 1000 := by
        simp only [List.length_append, List.length_cons, List.length_nil]
        omega
      rw [harith]
      have hle2 : (l' ++ [a]).length - 1000 ≤ l'.length := by
        simp only [List.length_append, List.length_cons, List.length_nil]
        omega
      rw [List.drop_append_of_le_length hle2]

theorem markNotamAsSeen_length_le {s : NotamState} (x : String)
    (h : s.seenNotams.length ≤ 1000) :
    (markNotamAsSeen x s).seenNotams.length ≤ 1000 := by
  by_cases hm : x ∈ s.seenNotams
  · rw [markNotamAsSeen_of_mem hm]; exact h
  · rw [markNotamAsSeen_of_not_mem hm]
    simp only [List.length_drop, List.length_append, List.length_cons, List.length_nil]
    omega

theorem foldl_markNotamAsSeen_length_le (l : List String) :
    ∀ s : NotamState, s.seenNotams.length ≤ 1000 →
      ((l.foldl (fun s i => markNotamAsSeen i s) s).seenNotams).length ≤ 1000 := by
  induction l with
  | nil => intro s h; exact h
  | cons a rest ih =>
    intro s h
    simp only [List.foldl_cons]
    exact ih _ (markNotamAsSeen_length_le a h)

/-- C6: for the cap `N = 1000` and every sequence of `N + k` distinct
identifiers (`k > 0`) inserted in order into an empty SeenSet via
`markNotamAsSeen`, the surviving `seenNotams` sequence is exactly the
last `N` identifiers inserted, in insertion order (the oldest `k`
evicted); and after any prefix of the insertions the length never
exceeds 1000. -/
theorem seenSet_fifo_eviction (l : List String) (k : Nat)
    (hnd : l.Nodup) (hlen : l.length = 1000 + k) (hk : 0 < k) :
    (l.foldl (fun s i => markNotamAsSeen i s) ⟨[]⟩).seenNotams = l.drop k ∧
    ∀ j : Nat,
      (((l.take j).foldl (fun s i => markNotamAsSeen i s) ⟨[]⟩).seenNotams).length
        ≤ 1000 := by
  constructor
  · rw [foldl_markNotamAsSeen_nodup l hnd]
    have hdk : l.length - 1000 = k := by omega
    rw [hdk]
  · intro j
    exact foldl_markNotamAsSeen_length_le (l.take j) ⟨[]⟩ (by simp)

/-- 1001 pairwise-distinct identifiers (distinct lengths). -/
def mkIds (n : Nat) : List String :=
  (List.range n).map (fun i => String.mk (List.replicate i 'a'))

theorem mkIds_nodup (n : Nat) : (mkIds n).Nodup := by
  refine List.Nodup.map ?_ (List.nodup_range n)
  intro i j hij
  have := congrArg (fun s : String => s.data.length) hij
  simpa using this

/-- Witness for C6: 1001 distinct ids; the survivor list is the last
1000 of them. -/
theorem seenSet_fifo_eviction_witness :
    (mkIds 1001).Nodup ∧ (mkIds 1001).length = 1000 + 1 ∧
    ((mkIds 1001).foldl (fun s i => markNotamAsSeen i s) ⟨[]⟩).seenNotams
      = (mkIds 1001).drop 1 :=
  ⟨mkIds_nodup 1001, by simp [mkIds],
    (seenSet_fifo_eviction (mkIds 1001) 1 (mkIds_nodup 1001)
      (by simp [mkIds]) (by decide)).1⟩

/-! ## C1 — intra-cycle fetch-order duplicates -/

/-- C1 counterexample: a cycle whose fetch holds two notices with the
same id `"A"` (neither previously seen), with every send succeeding,
performs TWO sends for that id, not exactly one: the new-set is computed
once, before the delivery loop, so marking the first occurrence seen
does not remove the second from the already-built queue. -/
theorem intra_cycle_duplicate_counterexample :
    (((pollNotams ⟨"KBLM", true⟩ (fun _ => true)
        [⟨"A", "first", none⟩, ⟨"A", "second", none⟩] "10:30"
        ⟨⟨[]⟩, false, true⟩).records).filter
          (fun rec => rec.notam.id == "A")).length = 2 ∧
    (((pollNotams ⟨"KBLM", true⟩ (fun _ => true)
        [⟨"A", "first", none⟩, ⟨"A", "second", none⟩] "10:30"
        ⟨⟨[]⟩, false, true⟩).records).filter
          (fun rec => rec.notam.id == "A")).length ≠ 1 := by
  constructor
  · rfl
  · decide

/-- C1 (amended): with two same-id unseen notices in one fetch and all
sends succeeding, BOTH occurrences are sent in that cycle (two sends for
that id) — the queue is diffed once up front — while the immediate
marking prevents any send of that id in the next cycle over the same
fetch result. -/
theorem intra_cycle_duplicate_two_sends (env : PollEnv) (n1 n2 : Notam)
    (ts ts2 : String) (app : AppState) (send2 : Nat → Bool)
    (hid : n1.id = n2.id)
    (hp : app.isPolling = false)
    (hseen : hasSeenNotam n1.id app.state = false) :
    (((pollNotams env (fun _ => true) [n1, n2] ts app).records).filter
        (fun rec => rec.notam.id == n1.id)).length = 2 ∧
    (((pollNotams env send2 [n1, n2] ts2
        (pollNotams env (fun _ => true) [n1, n2] ts app).app).records).filter
        (fun rec => rec.notam.id == n1.id)).length = 0 := by
  have hseen2 : hasSeenNotam n2.id app.state = false := by rw [← hid]; exact hseen
  have hnew : getNewNotams [n1, n2] app.state = [n1, n2] := by
    simp [getNewNotams, List.filter, hseen, hseen2]
  have hrun := pollNotams_eq_no_probe env (fun _ => true) [n1, n2] ts app hp
    (Or.inr (by rw [hnew]; exact List.cons_ne_nil _ _))
  have hproc : processQueue (fun _ => true) env.airportCode ts [n1, n2] 0 app.state =
      (markNotamAsSeen n2.id (markNotamAsSeen n1.id app.state),
       [⟨n1, cleanMessage (.obj (toJsNotam n1)) env.airportCode ts, true⟩,
        ⟨n2, cleanMessage (.obj (toJsNotam n2)) env.airportCode ts, true⟩]) := by
    simp [processQueue]
  have hmem1 : n2.id ∈ (markNotamAsSeen n1.id app.state).seenNotams := by
    rw [← hid]
    exact mem_markNotamAsSeen_self _ _
  have hstate2 : markNotamAsSeen n2.id (markNotamAsSeen n1.id app.state)
      = markNotamAsSeen n1.id app.state := markNotamAsSeen_of_mem hmem1
  constructor
  · rw [hrun, hnew, hproc]
    simp [hid]
  · have hseenA : hasSeenNotam n1.id
        (pollNotams env (fun _ => true) [n1, n2] ts app).app.state = true := by
      rw [hrun, hnew, hproc]
      have : n1.id ∈ (markNotamAsSeen n2.id (markNotamAsSeen n1.id app.state)).seenNotams := by
        rw [hstate2]
        exact mem_markNotamAsSeen_self _ _
      exact (hasSeenNotam_iff _ _).mpr this
    have hseenB : hasSeenNotam n2.id
        (pollNotams env (fun _ => true) [n1, n2] ts app).app.state = true := by
      rw [← hid]
      exact hseenA
    have hnew2 : getNewNotams [n1, n2]
        (pollNotams env (fun _ => true) [n1, n2] ts app).app.state = [] := by
      simp [getNewNotams, List.filter, hseenA, hseenB]
    have hrun2 := pollNotams_eq_no_probe env send2 [n1, n2] ts2
      (pollNotams env (fun _ => true) [n1, n2] ts app).app
      (pollNotams_isPolling_false env (fun _ => true) [n1, n2] ts app hp)
      (Or.inl (pollNotams_probe_cleared env (fun _ => true) [n1, n2] ts app hp))
    rw [hrun2, hnew2]
    rfl

/-- Witness for the amended C1 at a concrete duplicated fetch. -/
theorem intra_cycle_duplicate_two_sends_witness :
    (((pollNotams ⟨"KBLM", false⟩ (fun _ => true)
        [⟨"A", "first", none⟩, ⟨"A", "second", none⟩] "10:31"
        ⟨⟨["Z"]⟩, false, false⟩).records).filter
        (fun rec => rec.notam.id == "A")).length = 2 ∧
    (((pollNotams ⟨"KBLM", false⟩ (fun _ => false)
        [⟨"A", "first", none⟩, ⟨"A", "second", none⟩] "10:32"
        (pollNotams ⟨"KBLM", false⟩ (fun _ => true)
          [⟨"A", "first", none⟩, ⟨"A", "second", none⟩] "10:31"
          ⟨⟨["Z"]⟩, false, false⟩).app).records).filter
        (fun rec => rec.notam.id == "A")).length = 0 :=
  intra_cycle_duplicate_two_sends ⟨"KBLM", false⟩ ⟨"A", "first", none⟩
    ⟨"A", "second", none⟩ "10:31" "10:32" ⟨⟨["Z"]⟩, false, false⟩
    (fun _ => false) rfl rfl rfl

/-! ## C2 — startup verification probe -/

/-- C2 counterexample: on the first cycle with the probe enabled, zero
prior seen ids and a non-empty two-notice fetch, TWO deliveries occur
(every fetched notice is new by id, so the whole fetch is queued and the
probe does not fire) — not exactly one. -/
theorem startup_probe_counterexample :
    ((pollNotams ⟨"KBLM", true⟩ (fun _ => true)
        [⟨"A", "ta", none⟩, ⟨"B", "tb", none⟩] "10:30"
        ⟨⟨[]⟩, false, true⟩).records).map SendRecord.notam
      = [⟨"A", "ta", none⟩, ⟨"B", "tb", none⟩] ∧
    ((pollNotams ⟨"KBLM", true⟩ (fun _ => true)
        [⟨"A", "ta", none⟩, ⟨"B", "tb", none⟩] "10:30"
        ⟨⟨[]⟩, false, true⟩).records).length ≠ 1 := by
  constructor
  · rfl
  · decide

/-- C2 (amended): on the first cycle with the probe enabled, when the
new-set is EMPTY (every fetched id already seen) and the fetch is
non-empty, exactly one delivery occurs — the first element of the fetch
result — without pre-marking it seen (a failed send leaves the SeenSet
unchanged); the one-shot flag is then cleared, and on the next cycle the
probe never fires again regardless of SeenSet state: its deliveries are
exactly the new-set of that cycle. -/
theorem startup_probe_fires_once (env : PollEnv) (send send2 : Nat → Bool)
    (notams notams2 : List Notam) (n0 : Notam) (rest : List Notam)
    (ts ts2 : String) (app : AppState)
    (hsl : env.startupSendLatest = true)
    (hpp : app.startupProbePending = true)
    (hp : app.isPolling = false)
    (hnew : getNewNotams notams app.state = [])
    (hne : notams = n0 :: rest) :
    ((pollNotams env send notams ts app).records).map SendRecord.notam = [n0] ∧
    (send 0 = false → (pollNotams env send notams ts app).app.state = app.state) ∧
    (pollNotams env send notams ts app).app.startupProbePending = false ∧
    ((pollNotams env send2 notams2 ts2
        (pollNotams env send notams ts app).app).records).map SendRecord.notam
      = getNewNotams notams2 (pollNotams env send notams ts app).app.state := by
  have hmain : pollNotams env send notams ts app =
      { app := ⟨(if send 0 then markNotamAsSeen n0.id app.state else app.state),
                false, false⟩,
        records := [⟨n0, cleanMessage (.obj (toJsNotam n0)) env.airportCode ts, send 0⟩],
        saved := some (if send 0 then markNotamAsSeen n0.id app.state else app.state) } := by
    subst hne
    simp [pollNotams, hp, hsl, hpp, hnew, processQueue]
  rw [hmain]
  refine ⟨rfl, ?_, rfl, ?_⟩
  · intro h0
    simp [h0]
  · rw [pollNotams_eq_no_probe env send2 notams2 ts2 _ rfl (Or.inl (by simp))]
    exact processQueue_map_notam send2 env.airportCode ts2 _ 0 _

/-- Witness for the amended C2: one already-seen notice fetched on the
first probe-armed cycle; the probe delivers it once, and a second cycle
over a fresh fetch delivers exactly that cycle's new-set. -/
theorem startup_probe_fires_once_witness :
    ((pollNotams ⟨"KBLM", true⟩ (fun _ => true) [⟨"A", "ta", none⟩] "10:30"
        ⟨⟨["A"]⟩, false, true⟩).records).map SendRecord.notam = [⟨"A", "ta", none⟩] ∧
    ((fun _ => true : Nat → Bool) 0 = false →
      (pollNotams ⟨"KBLM", true⟩ (fun _ => true) [⟨"A", "ta", none⟩] "10:30"
        ⟨⟨["A"]⟩, false, true⟩).app.state = (⟨⟨["A"]⟩, false, true⟩ : AppState).state) ∧
    (pollNotams ⟨"KBLM", true⟩ (fun _ => true) [⟨"A", "ta", none⟩] "10:30"
        ⟨⟨["A"]⟩, false, true⟩).app.startupProbePending = false ∧
    ((pollNotams ⟨"KBLM", true⟩ (fun _ => false) [⟨"B", "tb", none⟩] "10:31"
        (pollNotams ⟨"KBLM", true⟩ (fun _ => true) [⟨"A", "ta", none⟩] "10:30"
          ⟨⟨["A"]⟩, false, true⟩).app).records).map SendRecord.notam
      = getNewNotams [⟨"B", "tb", none⟩]
          (pollNotams ⟨"KBLM", true⟩ (fun _ => true) [⟨"A", "ta", none⟩] "10:30"
            ⟨⟨["A"]⟩, false, true⟩).app.state :=
  startup_probe_fires_once ⟨"KBLM", true⟩ (fun _ => true) (fun _ => false)
    [⟨"A", "ta", none⟩] [⟨"B", "tb", none⟩] ⟨"A", "ta", none⟩ [] "10:30" "10:31"
    ⟨⟨["A"]⟩, false, true⟩ rfl rfl rfl rfl rfl

/-! ## C3 — crash before the end-of-cycle save -/

theorem processQueue_map_success_all_true (airport ts : String) :
    ∀ (q : List Notam) (i : Nat) (st : NotamState),
      ((processQueue (fun _ => true) airport ts q i st).2).map SendRecord.success
        = List.replicate q.length true := by
  intro q
  induction q with
  | nil => intro i st; rfl
  | cons n rest ih =>
    intro i st
    simp only [processQueue, List.map_cons, List.length_cons]
    rw [ih]
    rfl

/-- C3 counterexample: a cycle from an empty (last-saved) state delivers
`k = 2` notices successfully; the process crashes before the end-of-cycle
save, restarts with the last saved state, re-fetches the same notices —
and delivers BOTH of them again: more than "at most one". -/
theorem crash_redelivery_counterexample :
    ((pollNotams ⟨"KBLM", false⟩ (fun _ => true)
        [⟨"A", "ta", none⟩, ⟨"B", "tb", none⟩] "10:30"
        ⟨⟨[]⟩, false, false⟩).records).map SendRecord.success = [true, true] ∧
    ((pollNotams ⟨"KBLM", false⟩ (fun _ => true)
        [⟨"A", "ta", none⟩, ⟨"B", "tb", none⟩] "10:45"
        ⟨⟨[]⟩, false, true⟩).records).map SendRecord.notam
      = [⟨"A", "ta", none⟩, ⟨"B", "tb", none⟩] ∧
    ((pollNotams ⟨"KBLM", false⟩ (fun _ => true)
        [⟨"A", "ta", none⟩, ⟨"B", "tb", none⟩] "10:45"
        ⟨⟨[]⟩, false, true⟩).records).length ≠ 1 := by
  refine ⟨?_, ?_, ?_⟩
  · rfl
  · rfl
  · decide

/-- C3 (amended): the SeenSet is flushed only once, at the end of the
cycle, so if a cycle successfully delivers the `k` new notices and the
process crashes before that save, a restart that loads the last saved
state and re-fetches the same notices re-attempts ALL `k` of them —
exactly the same notices, in the same order (none lost, every one
re-delivered, not at most one). -/
theorem crash_before_save_redelivers_all (env : PollEnv) (send2 : Nat → Bool)
    (notams : List Notam) (s : NotamState) (p1 p2 : Bool) (ts1 ts2 : String)
    (hne : getNewNotams notams s ≠ []) :
    ((pollNotams env (fun _ => true) notams ts1 ⟨s, false, p1⟩).records).map SendRecord.notam
      = getNewNotams notams s ∧
    ((pollNotams env (fun _ => true) notams ts1 ⟨s, false, p1⟩).records).map SendRecord.success
      = List.replicate (getNewNotams notams s).length true ∧
    ((pollNotams env send2 notams ts2 ⟨s, false, p2⟩).records).map SendRecord.notam
      = getNewNotams notams s := by
  have h1 := pollNotams_eq_no_probe env (fun _ => true) notams ts1 ⟨s, false, p1⟩ rfl
    (Or.inr hne)
  have h2 := pollNotams_eq_no_probe env send2 notams ts2 ⟨s, false, p2⟩ rfl
    (Or.inr hne)
  rw [h1, h2]
  exact ⟨processQueue_map_notam _ env.airportCode ts1 _ 0 _,
    processQueue_map_success_all_true env.airportCode ts1 _ 0 _,
    processQueue_map_notam _ env.airportCode ts2 _ 0 _⟩

/-- Witness for the amended C3 at a concrete two-notice fetch. -/
theorem crash_before_save_redelivers_all_witness :
    getNewNotams [⟨"A", "ta", none⟩, ⟨"B", "tb", none⟩] ⟨["Z"]⟩ ≠ [] ∧
    (((pollNotams ⟨"KBLM", false⟩ (fun _ => true)
        [⟨"A", "ta", none⟩, ⟨"B", "tb", none⟩] "10:30"
        ⟨⟨["Z"]⟩, false, false⟩).records).map SendRecord.notam
      = getNewNotams [⟨"A", "ta", none⟩, ⟨"B", "tb", none⟩] ⟨["Z"]⟩ ∧
    ((pollNotams ⟨"KBLM", false⟩ (fun _ => true)
        [⟨"A", "ta", none⟩, ⟨"B", "tb", none⟩] "10:30"
        ⟨⟨["Z"]⟩, false, false⟩).records).map SendRecord.success
      = List.replicate (getNewNotams [⟨"A", "ta", none⟩, ⟨"B", "tb", none⟩]
          ⟨["Z"]⟩).length true ∧
    ((pollNotams ⟨"KBLM", false⟩ (fun _ => true)
        [⟨"A", "ta", none⟩, ⟨"B", "tb", none⟩] "10:45"
        ⟨⟨["Z"]⟩, false, true⟩).records).map SendRecord.notam
      = getNewNotams [⟨"A", "ta", none⟩, ⟨"B", "tb", none⟩] ⟨["Z"]⟩) :=
  ⟨by decide,
    crash_before_save_redelivers_all ⟨"KBLM", false⟩ (fun _ => true)
      [⟨"A", "ta", none⟩, ⟨"B", "tb", none⟩] ⟨["Z"]⟩ false true "10:30" "10:45"
      (by decide)⟩

/-! ## Helper lemmas for the sanitizer (C9) -/

theorem mem_foldl_emoji_filter (rs : List (Nat × Nat)) :
    ∀ (l : List Char) (c : Char),
      c ∈ rs.foldl (fun acc r => acc.filter (fun ch => !inCharRange r.1 r.2 ch)) l →
      c ∈ l ∧ ∀ r ∈ rs, inCharRange r.1 r.2 c = false := by
  induction rs with
  | nil =>
    intro l c h
    exact ⟨h, by simp⟩
  | cons r rest ih =>
    intro l c h
    rw [List.foldl_cons] at h
    obtain ⟨hmem, hall⟩ := ih _ c h
    rw [List.mem_filter] at hmem
    refine ⟨hmem.1, ?_⟩
    intro r' hr'
    rcases List.mem_cons.mp hr' with rfl | hr'
    · have := hmem.2
      simpa using this
    · exact hall r' hr'

theorem mem_trimList (l : List Char) (c : Char) (h : c ∈ trimList l) : c ∈ l := by
  unfold trimList at h
  have h1 := List.mem_reverse.mp h
  have h2 := (List.dropWhile_sublist _).mem h1
  have h3 := List.mem_reverse.mp h2
  exact (List.dropWhile_sublist _).mem h3

theorem removeEmojis_no_emoji (s : String) (c : Char)
    (h : c ∈ (removeEmojis s).data) : isEmojiChar c = false := by
  have h1 : c ∈ trimList (emojiRanges.foldl
      (fun l r => l.filter (fun ch => !inCharRange r.1 r.2 ch)) s.data) := h
  have h2 := mem_trimList _ _ h1
  obtain ⟨_, hall⟩ := mem_foldl_emoji_filter emojiRanges _ c h2
  rw [isEmojiChar, Bool.eq_false_iff]
  intro hany
  rw [List.any_eq_true] at hany
  obtain ⟨r, hr, hcr⟩ := hany
  rw [hall r hr] at hcr
  exact Bool.false_ne_true hcr

theorem mem_collapseGo (c : Char) :
    ∀ (l : List Char) (k : Nat), c ∈ collapseGo k l → c ∈ l ∨ c = '\n' := by
  intro l
  induction l with
  | nil =>
    intro k h
    simp only [collapseGo] at h
    exact Or.inr (List.eq_of_mem_replicate h)
  | cons a t ih =>
    intro k h
    simp only [collapseGo] at h
    by_cases ha : a = '\n'
    · rw [if_pos ha] at h
      rcases ih (k + 1) h with h1 | h1
      · exact Or.inl (List.mem_cons_of_mem _ h1)
      · exact Or.inr h1
    · rw [if_neg ha] at h
      rcases List.mem_append.mp h with h1 | h1
      · exact Or.inr (List.eq_of_mem_replicate h1)
      · rcases List.mem_cons.mp h1 with rfl | h2
        · exact Or.inl (List.mem_cons_self _ _)
        · rcases ih 0 h2 with h3 | h3
          · exact Or.inl (List.mem_cons_of_mem _ h3)
          · exact Or.inr h3

theorem collapseGo_no_newline :
    ∀ (l : List Char), (∀ c ∈ l, c ≠ '\n') → collapseGo 0 l = l := by
  intro l
  induction l with
  | nil => intro _; rfl
  | cons a t ih =>
    intro h
    have ha : a ≠ '\n' := h a (List.mem_cons_self _ _)
    simp only [collapseGo, if_neg ha]
    rw [ih (fun c hc => h c (List.mem_cons_of_mem _ hc))]
    rfl

theorem collapseGo_append :
    ∀ (p : List Char), (∀ c ∈ p, c ≠ '\n') → ∀ (l : List Char),
      collapseGo 0 (p ++ l) = p ++ collapseGo 0 l := by
  intro p
  induction p with
  | nil => intro _ l; simp
  | cons a t ih =>
    intro hp l
    have ha : a ≠ '\n' := hp a (List.mem_cons_self _ _)
    simp only [List.cons_append, collapseGo, if_neg ha, List.append_eq]
    rw [ih (fun c hc => hp c (List.mem_cons_of_mem _ hc)) l]
    rfl

/-- Scanner for "three consecutive newlines occur somewhere". -/
def hasTripleNL : List Char → Bool
  | c1 :: c2 :: c3 :: rest =>
    ((c1 == '\n') && (c2 == '\n') && (c3 == '\n')) || hasTripleNL (c2 :: c3 :: rest)
  | _ => false

theorem hasTripleNL_short (l : List Char) (h : l.length ≤ 2) : hasTripleNL l = false := by
  rcases l with _ | ⟨a, _ | ⟨b, _ | ⟨c, t⟩⟩⟩
  · rfl
  · rfl
  · rfl
  · simp only [List.length_cons] at h
    omega

theorem hasTripleNL_cons_of_ne (c : Char) (hc : c ≠ '\n') (t : List Char) :
    hasTripleNL (c :: t) = hasTripleNL t := by
  rcases t with _ | ⟨a, _ | ⟨b, t'⟩⟩
  · rfl
  · rfl
  · simp only [hasTripleNL]
    have hcf : (c == '\n') = false := by simpa using hc
    rw [hcf]
    simp

theorem hasTripleNL_cons_of_tail (c : Char) (t : List Char) (h : hasTripleNL t = true) :
    hasTripleNL (c :: t) = true := by
  rcases t with _ | ⟨a, _ | ⟨b, t'⟩⟩
  · simp [hasTripleNL] at h
  · simp [hasTripleNL] at h
  · simp only [hasTripleNL] at h ⊢
    rw [h]
    simp

theorem hasTripleNL_append_triple (l r : List Char) :
    hasTripleNL (l ++ '\n' :: '\n' :: '\n' :: r) = true := by
  induction l with
  | nil => simp [hasTripleNL]
  | cons c t ih =>
    rw [List.cons_append]
    exact hasTripleNL_cons_of_tail c _ ih

theorem hasTripleNL_nl_cons (c : Char) (hc : c ≠ '\n') (m : List Char) :
    hasTripleNL ('\n' :: c :: m) = hasTripleNL (c :: m) := by
  rcases m with _ | ⟨m1, t⟩
  · rfl
  · simp only [hasTripleNL]
    have hcf : (c == '\n') = false := by simpa using hc
    rw [hcf]
    simp

theorem hasTripleNL_emit_prefix (j : Nat) (hj : j ≤ 2) (c : Char) (hc : c ≠ '\n')
    (m : List Char) (hm : hasTripleNL m = false) :
    hasTripleNL (List.replicate j '\n' ++ c :: m) = false := by
  have hcm : hasTripleNL (c :: m) = false := by
    rw [hasTripleNL_cons_of_ne c hc]
    exact hm
  rcases j with _ | _ | _ | j
  · simpa using hcm
  · simp only [List.replicate_succ, List.replicate_zero, List.cons_append, List.nil_append]
    rw [hasTripleNL_nl_cons c hc]
    exact hcm
  · simp only [List.replicate_succ, List.replicate_zero, List.cons_append, List.nil_append]
    rcases m with _ | ⟨m1, t⟩
    · rcases eq_or_ne c '\n' with rfl | _
      · exact absurd rfl hc
      · simp only [hasTripleNL]
        have hcf : (c == '\n') = false := by simpa using hc
        rw [hcf]
        simp
    · simp only [hasTripleNL]
      have hcf : (c == '\n') = false := by simpa using hc
      rw [hcf]
      simp only [Bool.and_false, Bool.false_and, Bool.false_or]
      exact hcm
  · omega

theorem hasTripleNL_collapseGo :
    ∀ (l : List Char) (k : Nat), hasTripleNL (collapseGo k l) = false := by
  intro l
  induction l with
  | nil =>
    intro k
    simp only [collapseGo, emitNL]
    apply hasTripleNL_short
    rw [List.length_replicate]
    split <;> omega
  | cons a t ih =>
    intro k
    simp only [collapseGo]
    by_cases ha : a = '\n'
    · rw [if_pos ha]
      exact ih (k + 1)
    · rw [if_neg ha]
      rw [emitNL]
      exact hasTripleNL_emit_prefix (if 3 ≤ k then 2 else k) (by split <;> omega)
        a ha (collapseGo 0 t) (ih 0)

theorem collapseGo_ends (m : List Char) (hm_ne : m ≠ []) (hm : ∀ c ∈ m, c ≠ '\n') :
    ∀ (l : List Char) (k : Nat), ∃ p, collapseGo k (l ++ '\n' :: m) = p ++ '\n' :: m := by
  intro l
  induction l with
  | nil =>
    intro k
    rcases m with _ | ⟨c, m'⟩
    · exact absurd rfl hm_ne
    · have hc : c ≠ '\n' := hm c (List.mem_cons_self _ _)
      simp only [List.nil_append, collapseGo, if_pos rfl, if_neg hc]
      rw [collapseGo_no_newline m' (fun d hd => hm d (List.mem_cons_of_mem _ hd))]
      refine ⟨List.replicate ((if 3 ≤ k + 1 then 2 else k + 1) - 1) '\n', ?_⟩
      rw [emitNL]
      have h1 : (if 3 ≤ k + 1 then 2 else k + 1)
          = ((if 3 ≤ k + 1 then 2 else k + 1) - 1) + 1 := by
        split <;> omega
      rw [h1, List.replicate_succ']
      simp [List.append_assoc]
  | cons a l' ih =>
    intro k
    rcases eq_or_ne a '\n' with ha | ha
    · rw [List.cons_append]
      simp only [collapseGo, if_pos ha]
      exact ih (k + 1)
    · rw [List.cons_append]
      simp only [collapseGo, if_neg ha]
      obtain ⟨p, hp⟩ := ih 0
      rw [hp]
      exact ⟨emitNL k ++ a :: p, by simp [List.append_assoc]⟩

theorem trimList_id (l : List Char)
    (hhead : ∃ c t, l = c :: t ∧ isJsSpace c = false)
    (hlast : ∃ c t, l.reverse = c :: t ∧ isJsSpace c = false) :
    trimList l = l := by
  obtain ⟨c, t, hl, hc⟩ := hhead
  obtain ⟨d, r, hr, hd⟩ := hlast
  have h1 : l.dropWhile isJsSpace = l := by
    rw [hl, List.dropWhile_cons, if_neg (by simp [hc])]
  have h2 : l.reverse.dropWhile isJsSpace = l.reverse := by
    rw [hr, List.dropWhile_cons, if_neg (by simp [hd])]
  unfold trimList
  rw [h1, h2, List.reverse_reverse]

/-- The shape of `cleanMessage`'s output for an object notam with a
truthy text chain: header, number-line chars `np`, emoji-stripped body,
`Received:` line, newline-collapsed and trimmed (airport `"KBLM"`). -/
def sanitizedShape (np : List Char) (text ts : String) : List Char :=
  trimList (collapseNL ((("KBLM" : String).data ++ (" NOTAM\n" : String).data)
    ++ np ++ (removeEmojis text).data
    ++ ('\n' :: ("Received: " : String).data ++ ts.data)))

theorem sanitizedShape_spec (np : List Char) (text ts : String)
    (hnp : ∀ c ∈ np, isEmojiChar c = false)
    (hts_ne : ts.data ≠ [])
    (hts : ∀ c ∈ ts.data, c ≠ '\n' ∧ isEmojiChar c = false ∧ isJsSpace c = false) :
    (∀ c ∈ sanitizedShape np text ts, isEmojiChar c = false) ∧
    (¬ ∃ u v, sanitizedShape np text ts = u ++ '\n' :: '\n' :: '\n' :: v) ∧
    (∃ t2, sanitizedShape np text ts = ("KBLM NOTAM" : String).data ++ t2) ∧
    (∃ p, sanitizedShape np text ts
        = p ++ '\n' :: (("Received: " : String).data ++ ts.data)) := by
  have hmne : ("Received: " : String).data ++ ts.data ≠ [] := by simp
  have hmnl : ∀ c ∈ ("Received: " : String).data ++ ts.data, c ≠ '\n' := by
    intro c hc
    rcases List.mem_append.mp hc with h | h
    · have hrc : ∀ c ∈ ("Received: " : String).data, c ≠ '\n' := by decide
      exact hrc c h
    · exact (hts c h).1
  obtain ⟨p0, hp0⟩ := collapseGo_ends (("Received: " : String).data ++ ts.data) hmne hmnl
    ((("KBLM" : String).data ++ (" NOTAM\n" : String).data) ++ np
      ++ (removeEmojis text).data) 0
  have hE : (("KBLM" : String).data ++ (" NOTAM\n" : String).data) ++ np
        ++ (removeEmojis text).data ++ ('\n' :: ("Received: " : String).data ++ ts.data)
      = ((("KBLM" : String).data ++ (" NOTAM\n" : String).data) ++ np
        ++ (removeEmojis text).data)
        ++ ('\n' :: (("Received: " : String).data ++ ts.data)) := by
    simp [List.append_assoc]
  have hcoll : collapseNL ((("KBLM" : String).data ++ (" NOTAM\n" : String).data)
        ++ np ++ (removeEmojis text).data
        ++ ('\n' :: ("Received: " : String).data ++ ts.data))
      = p0 ++ '\n' :: (("Received: " : String).data ++ ts.data) := by
    rw [collapseNL, hE]
    exact hp0
  have hklit : ("KBLM" : String).data ++ (" NOTAM\n" : String).data
      = ("KBLM NOTAM" : String).data ++ ['\n'] := by decide
  have hP : (("KBLM" : String).data ++ (" NOTAM\n" : String).data) ++ np
        ++ (removeEmojis text).data ++ ('\n' :: ("Received: " : String).data ++ ts.data)
      = ("KBLM NOTAM" : String).data ++ ('\n' :: (np ++ ((removeEmojis text).data
        ++ ('\n' :: ("Received: " : String).data ++ ts.data)))) := by
    rw [hklit]
    simp [List.append_assoc]
  have hnn : ∀ c ∈ ("KBLM NOTAM" : String).data, c ≠ '\n' := by decide
  have hpre : collapseNL ((("KBLM" : String).data ++ (" NOTAM\n" : String).data)
        ++ np ++ (removeEmojis text).data
        ++ ('\n' :: ("Received: " : String).data ++ ts.data))
      = ("KBLM NOTAM" : String).data
        ++ collapseGo 0 ('\n' :: (np ++ ((removeEmojis text).data
          ++ ('\n' :: ("Received: " : String).data ++ ts.data)))) := by
    rw [collapseNL, hP]
    exact collapseGo_append _ hnn _
  have hk : ("KBLM NOTAM" : String).data = 'K' :: ("BLM NOTAM" : String).data := by decide
  have hhead : ∃ c t2, collapseNL ((("KBLM" : String).data ++ (" NOTAM\n" : String).data)
        ++ np ++ (removeEmojis text).data
        ++ ('\n' :: ("Received: " : String).data ++ ts.data)) = c :: t2
        ∧ isJsSpace c = false := by
    refine ⟨'K', ("BLM NOTAM" : String).data
      ++ collapseGo 0 ('\n' :: (np ++ ((removeEmojis text).data
        ++ ('\n' :: ("Received: " : String).data ++ ts.data)))), ?_, by decide⟩
    rw [hpre, hk, List.cons_append]
  rcases hrev : ts.data.reverse with _ | ⟨d, r⟩
  · exact absurd (List.reverse_eq_nil_iff.mp hrev) hts_ne
  have hd_mem : d ∈ ts.data := by
    rw [← List.mem_reverse, hrev]
    exact List.mem_cons_self _ _
  have hd_ws : isJsSpace d = false := (hts d hd_mem).2.2
  have hsplit : collapseNL ((("KBLM" : String).data ++ (" NOTAM\n" : String).data)
        ++ np ++ (removeEmojis text).data
        ++ ('\n' :: ("Received: " : String).data ++ ts.data))
      = (p0 ++ '\n' :: ("Received: " : String).data) ++ ts.data := by
    rw [hcoll]
    simp [List.append_assoc]
  have hlast : ∃ c t2, (collapseNL ((("KBLM" : String).data ++ (" NOTAM\n" : String).data)
        ++ np ++ (removeEmojis text).data
        ++ ('\n' :: ("Received: " : String).data ++ ts.data))).reverse = c :: t2
        ∧ isJsSpace c = false := by
    refine ⟨d, r ++ (p0 ++ '\n' :: ("Received: " : String).data).reverse, ?_, hd_ws⟩
    rw [hsplit, List.reverse_append, hrev, List.cons_append]
  have htrim : trimList (collapseNL ((("KBLM" : String).data ++ (" NOTAM\n" : String).data)
        ++ np ++ (removeEmojis text).data
        ++ ('\n' :: ("Received: " : String).data ++ ts.data)))
      = collapseNL ((("KBLM" : String).data ++ (" NOTAM\n" : String).data)
        ++ np ++ (removeEmojis text).data
        ++ ('\n' :: ("Received: " : String).data ++ ts.data)) :=
    trimList_id _ hhead hlast
  refine ⟨?_, ?_, ?_, ?_⟩
  · intro c hc
    have h1 := mem_trimList _ _ hc
    rw [collapseNL] at h1
    rcases mem_collapseGo c _ 0 h1 with h2 | h2
    · rcases List.mem_append.mp h2 with h3 | h3
      · rcases List.mem_append.mp h3 with h4 | h4
        · rcases List.mem_append.mp h4 with h5 | h5
          · have hlit : ∀ c ∈ ("KBLM" : String).data ++ (" NOTAM\n" : String).data,
                isEmojiChar c = false := by decide
            exact hlit c h5
          · exact hnp c h5
        · exact removeEmojis_no_emoji text c h4
      · rcases List.mem_append.mp h3 with h4 | h4
        · rcases List.mem_cons.mp h4 with rfl | h5
          · decide
          · have hlit : ∀ c ∈ ("Received: " : String).data, isEmojiChar c = false := by
              decide
            exact hlit c h5
        · exact (hts c h4).2.1
    · subst h2
      decide
  · rintro ⟨u, v, huv⟩
    have h1 : hasTripleNL (sanitizedShape np text ts) = false := by
      rw [sanitizedShape, htrim, collapseNL]
      exact hasTripleNL_collapseGo _ 0
    rw [huv, hasTripleNL_append_triple] at h1
    exact Bool.noConfusion h1
  · refine ⟨collapseGo 0 ('\n' :: (np ++ ((removeEmojis text).data
      ++ ('\n' :: ("Received: " : String).data ++ ts.data)))), ?_⟩
    rw [sanitizedShape, htrim]
    exact hpre
  · refine ⟨p0, ?_⟩
    rw [sanitizedShape, htrim]
    exact hcoll

/-! ## C9 — sanitizer round trip -/

/-- C9: for every notam object whose `text` field contains an emoji
sequence and a run of four consecutive newlines, cleaned for airport
`"KBLM"` at any wall-clock timestamp (newline-free, emoji-free,
whitespace-free, non-empty), `cleanMessage` yields a message with no
emoji character present, no run of three or more consecutive newlines,
starting with `"KBLM NOTAM"`, and ending with a final line beginning
`"Received: "`; and an internal error (an `Except.error` body) yields
the fixed fallback string instead of propagating. -/
theorem cleanMessage_sanitizer (n : JsNotam) (text ts : String)
    (htext : n.text = some text)
    (hemoji : ∃ c ∈ text.data, isEmojiChar c = true)
    (hruns : ∃ u v, text.data = u ++ '\n' :: '\n' :: '\n' :: '\n' :: v)
    (hts_ne : ts.data ≠ [])
    (hts : ∀ c ∈ ts.data, c ≠ '\n' ∧ isEmojiChar c = false ∧ isJsSpace c = false) :
    (∀ c ∈ (cleanMessage (.obj n) "KBLM" ts).data, isEmojiChar c = false) ∧
    (¬ ∃ u v, (cleanMessage (.obj n) "KBLM" ts).data = u ++ '\n' :: '\n' :: '\n' :: v) ∧
    (∃ t2, (cleanMessage (.obj n) "KBLM" ts).data = ("KBLM NOTAM" : String).data ++ t2) ∧
    (∃ p, (cleanMessage (.obj n) "KBLM" ts).data
        = p ++ '\n' :: (("Received: " : String).data ++ ts.data)) ∧
    (∀ e : String, cleanMessageRun (Except.error e) = "Error processing NOTAM message") := by
  have htne : text ≠ "" := by
    obtain ⟨c0, hc0, _⟩ := hemoji
    intro h
    rw [h] at hc0
    simp at hc0
  have htt : firstTruthy [n.text, n.message, n.traditionalMessage] = some text := by
    rw [htext]
    simp [firstTruthy, truthyS, htne]
  rcases hnum : firstTruthy [n.number, n.notamNumber, n.id] with _ | num
  · have hmsg : (cleanMessage (.obj n) "KBLM" ts).data = sanitizedShape [] text ts := by
      simp only [cleanMessage, cleanMessageRun, cleanMessageBody, htt, hnum, sanitizedShape,
        collapseNL, List.append_nil, List.nil_append]
    obtain ⟨ha, hb, hcp, hd⟩ := sanitizedShape_spec [] text ts (by simp) hts_ne hts
    rw [hmsg]
    exact ⟨ha, hb, hcp, hd, fun e => rfl⟩
  · have hmsg : (cleanMessage (.obj n) "KBLM" ts).data
        = sanitizedShape ('#' :: (removeEmojis num).data ++ ['\n']) text ts := by
      simp only [cleanMessage, cleanMessageRun, cleanMessageBody, htt, hnum, sanitizedShape,
        collapseNL]
    have hnp : ∀ c ∈ '#' :: (removeEmojis num).data ++ ['\n'], isEmojiChar c = false := by
      intro c hc
      rcases List.mem_cons.mp hc with rfl | hc2
      · decide
      · rcases List.mem_append.mp hc2 with h3 | h3
        · exact removeEmojis_no_emoji num c h3
        · have hcn : c = '\n' := by simpa using h3
          subst hcn
          decide
    obtain ⟨ha, hb, hcp, hd⟩ := sanitizedShape_spec _ text ts hnp hts_ne hts
    rw [hmsg]
    exact ⟨ha, hb, hcp, hd, fun e => rfl⟩

/-- Witness for C9 at the spec's example text cleaned for `"KBLM"`. -/
theorem cleanMessage_sanitizer_witness :
    (∃ c ∈ ("Runway 👨‍✈️ closed\n\n\n\nEffective now" : String).data,
      isEmojiChar c = true) ∧
    ((∀ c ∈ (cleanMessage
        (.obj { text := some "Runway 👨‍✈️ closed\n\n\n\nEffective now" })
        "KBLM" "2026-01-01T00:00").data, isEmojiChar c = false) ∧
    (¬ ∃ u v, (cleanMessage
        (.obj { text := some "Runway 👨‍✈️ closed\n\n\n\nEffective now" })
        "KBLM" "2026-01-01T00:00").data = u ++ '\n' :: '\n' :: '\n' :: v) ∧
    (∃ t2, (cleanMessage
        (.obj { text := some "Runway 👨‍✈️ closed\n\n\n\nEffective now" })
        "KBLM" "2026-01-01T00:00").data = ("KBLM NOTAM" : String).data ++ t2) ∧
    (∃ p, (cleanMessage
        (.obj { text := some "Runway 👨‍✈️ closed\n\n\n\nEffective now" })
        "KBLM" "2026-01-01T00:00").data
        = p ++ '\n' :: (("Received: " : String).data
            ++ ("2026-01-01T00:00" : String).data)) ∧
    (∀ e : String, cleanMessageRun (Except.error e)
        = "Error processing NOTAM message")) :=
  ⟨by decide,
    cleanMessage_sanitizer { text := some "Runway 👨‍✈️ closed\n\n\n\nEffective now" }
      "Runway 👨‍✈️ closed\n\n\n\nEffective now" "2026-01-01T00:00" rfl
      (by decide)
      ⟨("Runway 👨‍✈️ closed" : String).data, ("Effective now" : String).data, by decide⟩
      (by decide) (by decide)⟩
